import Mathlib

/-!
Shallow embedding of `src/server.py` (a single node of the Nakamoto-style
gossip network): peer table with last-heard timestamps, message
deduplication by `(msg_id, originator)`, the monotone best-prime value
state, bounded-TTL relay of PRIME announcements, heartbeat PING/PONG,
peer eviction, sleep/wake and reset.

Timestamps (`time.time()`) are modelled as rationals, Python integers as
`Int`, ports as `Nat`.  The peer dictionary `STATE["peers"]` is modelled
as an insertion-ordered association list, matching the iteration order of
a Python dict; `RECEIVED_MESSAGES` is modelled as the list of inserted
identities (each identity is inserted at most once, since insertion is
guarded by the membership test).  Outbound network traffic is modelled by
returning the list of delivery attempts (`requests.post` calls); the
outcome of each attempt is supplied by an oracle `netOf`, since a network
failure is caught, logged and ignored by the code.  The message log
`LOGS` belongs to the excluded transport/administrative surface and is
not part of the node state.
-/

set_option autoImplicit false

namespace Nakamoto

/-- Message types: the Python string constants PING, PONG, PRIME. -/
inductive MsgType where
  | ping
  | pong
  | prime
deriving DecidableEq, Repr

/-- Outcome of one `requests.post` delivery attempt: success, or a caught
network exception (`RequestException` / `ConnectionResetError`). -/
inductive NetOutcome where
  | delivered
  | netFail
deriving DecidableEq, Repr

/-- Startup configuration: own port (`MY_PORT = int(sys.argv[1])`) and the
optional bootstrap peer (`int(sys.argv[2])` when present). -/
structure Config where
  myPort : Nat
  bootstrap : Option Nat
deriving DecidableEq, Repr

/-- The shared mutable node state: `STATE` (peers, biggest_prime,
biggest_prime_sender, msg_id), `RECEIVED_MESSAGES` and the `AWAKE` flag. -/
structure NodeState where
  peers : List (Nat × ℚ)
  biggest_prime : Int
  biggest_prime_sender : Nat
  msg_id : Int
  received : List (Int × Nat)
  awake : Bool
deriving DecidableEq, Repr

/-- A fully assembled outbound message envelope, as posted to a peer. -/
structure Envelope where
  msg_type : MsgType
  ttl : Int
  data : Option Int
  msg_id : Int
  msg_originator : Nat
  msg_forwarder : Nat
deriving DecidableEq, Repr

/-- One delivery attempt: target peer, envelope, and network outcome. -/
structure Sent where
  peer : Nat
  env : Envelope
  outcome : NetOutcome
deriving DecidableEq, Repr

/-- Initial `STATE` at process start (biggest_prime 2, sender self,
msg_id 0), with the optional bootstrap peer inserted. -/
def initialState (cfg : Config) (now : ℚ) : NodeState :=
  { peers := cfg.bootstrap.elim [] (fun b => [(b, now)])
    biggest_prime := 2
    biggest_prime_sender := cfg.myPort
    msg_id := 0
    received := []
    awake := true }

/-- Insertion-ordered update of the peer dictionary: refresh the entry in
place when the key is present, append it otherwise (Python dict update). -/
def updatePeers : List (Nat × ℚ) → Nat → ℚ → List (Nat × ℚ)
  | [], p, t => [(p, t)]
  | (q, u) :: rest, p, t =>
      if q = p then (p, t) :: rest else (q, u) :: updatePeers rest p t

/-- `update_last_heard_from(peer)`: `STATE["peers"][peer] = time.time()`. -/
def update_last_heard_from (now : ℚ) (peer : Nat) (s : NodeState) : NodeState :=
  { s with peers := updatePeers s.peers peer now }

/-- Core of `send_message_to` on the happy path (integer peer, well-formed
message dict): when awake, stamp the envelope with `msg_forwarder = self`
and `msg_id` = the current counter, set `msg_originator = self` unless the
message is forwarded, record the delivery attempt, and increment the
counter; when asleep the `only_if_awake` decorator suppresses everything.
The `origin` argument is the `msg_originator` field of the message dict,
used only when `forwarded` is true. -/
def sendMessageTo (cfg : Config) (peer : Nat) (mt : MsgType) (ttl : Int)
    (data : Option Int) (origin : Nat) (forwarded : Bool)
    (outcome : NetOutcome) (s : NodeState) : NodeState × List Sent :=
  if s.awake then
    ({ s with msg_id := s.msg_id + 1 },
     [{ peer := peer
        env := { msg_type := mt, ttl := ttl, data := data
                 msg_id := s.msg_id
                 msg_originator := if forwarded then origin else cfg.myPort
                 msg_forwarder := cfg.myPort }
        outcome := outcome }])
  else (s, [])

/-- A `for peer in ...: send_message_to(...)` fan-out loop over a list of
peers, sending the same message dict to each; the counter advances with
each send, so each attempt carries its own `msg_id`. -/
def sendEach (cfg : Config) (netOf : Nat → NetOutcome) (ps : List Nat)
    (mt : MsgType) (ttl : Int) (data : Option Int) (origin : Nat)
    (forwarded : Bool) (s : NodeState) : NodeState × List Sent :=
  match ps with
  | [] => (s, [])
  | p :: rest =>
      let r1 := sendMessageTo cfg p mt ttl data origin forwarded (netOf p) s
      let r2 := sendEach cfg netOf rest mt ttl data origin forwarded r1.1
      (r2.1, r1.2 ++ r2.2)

/-- `respond(msg_type, msg_id, msg_forwarder, msg_originator, ttl, data)`:
dedup on `(msg_id, originator)`, discard self-originated messages, touch
the forwarder, then dispatch on message type.  The returned `Bool` is
`false` exactly when the Python body raises (comparing `None > int` in the
PRIME branch); the state effects already applied are kept, as the caller
`receive` catches and logs the exception. -/
def respond (cfg : Config) (netOf : Nat → NetOutcome) (now : ℚ)
    (mt : MsgType) (mid : Int) (fwd : Nat) (orig : Nat) (ttl : Int)
    (data : Option Int) (s : NodeState) : NodeState × List Sent × Bool :=
  if (mid, orig) ∈ s.received then (s, [], true)
  else
    let s1 : NodeState := { s with received := (mid, orig) :: s.received }
    if orig = cfg.myPort then (s1, [], true)
    else
      let s2 := update_last_heard_from now fwd s1
      match mt with
      | .ping =>
          let r := sendMessageTo cfg orig .pong 0 none orig false (netOf orig) s2
          (r.1, r.2, true)
      | .pong => (s2, [], true)
      | .prime =>
          match data with
          | none => (s2, [], false)
          | some d =>
              let s3 : NodeState :=
                if s2.biggest_prime < d then
                  { s2 with biggest_prime := d, biggest_prime_sender := orig }
                else s2
              let s4 := update_last_heard_from now orig s3
              if ttl = 0 then (s4, [], true)
              else
                let r := sendEach cfg netOf (s4.peers.map Prod.fst) .prime
                          (ttl - 1) (some d) orig true s4
                (r.1, r.2, true)

/-- The `/receive` handler as actually dispatched by Flask.  In the source
`@ only_if_awake` is written above `@ app.route`, so the route table holds
the undecorated function and the awake guard never runs on the inbound
path: `respond` executes regardless of `AWAKE` (outbound sends are still
suppressed inside `send_message_to`, which is decorated directly).  The
exception from `respond` is caught and logged; the handler returns OK. -/
def receive_as_routed (cfg : Config) (netOf : Nat → NetOutcome) (now : ℚ)
    (mt : MsgType) (mid : Int) (fwd : Nat) (orig : Nat) (ttl : Int)
    (data : Option Int) (s : NodeState) : NodeState × List Sent :=
  let r := respond cfg netOf now mt mid fwd orig ttl data s
  (r.1, r.2.1)

/-- `INFECTION_FACTOR = 2`: number of peers to gossip to per round. -/
def INFECTION_FACTOR : Nat := 2

/-- `gossip_prime_number(prime)`: when awake, sample
`k = min(INFECTION_FACTOR, len(peers))` peers via `random.sample`
(modelled by the oracle `choose`) and send each a fresh PRIME with
`ttl = 2` and `originator = self`. -/
def gossip_prime_number (cfg : Config) (netOf : Nat → NetOutcome)
    (choose : List Nat → Nat → List Nat) (prime : Int)
    (s : NodeState) : NodeState × List Sent :=
  if s.awake then
    let k := min INFECTION_FACTOR s.peers.length
    sendEach cfg netOf (choose (s.peers.map Prod.fst) k) .prime 2
      (some prime) cfg.myPort false s
  else (s, [])

/-- `generate_next_mersenne_prime()`: when awake, compute the next value
from `biggest_prime` via the external collaborator
`find_next_mersenne_prime`, adopt it with self as sender, and gossip it. -/
def generate_next_mersenne_prime (cfg : Config) (netOf : Nat → NetOutcome)
    (choose : List Nat → Nat → List Nat) (find_next : Int → Int)
    (s : NodeState) : NodeState × List Sent :=
  if s.awake then
    let np := find_next s.biggest_prime
    let s1 : NodeState :=
      { s with biggest_prime := np, biggest_prime_sender := cfg.myPort }
    gossip_prime_number cfg netOf choose np s1
  else (s, [])

/-- `evict_peers()`: when awake, compute the list of peers whose last-heard
timestamp is more than 10 seconds old, then pop each from the dictionary. -/
def evict_peers (now : ℚ) (s : NodeState) : NodeState :=
  if s.awake then
    let toRemove := (s.peers.filter (fun pr => decide (10 < now - pr.2))).map Prod.fst
    { s with peers := toRemove.foldl (fun acc p => acc.eraseP (fun pr => pr.1 == p)) s.peers }
  else s

/-- `/sleep`: set `AWAKE = False`. -/
def sleep (s : NodeState) : NodeState := { s with awake := false }

/-- `/wake_up`: set `AWAKE = True`. -/
def wake_up (s : NodeState) : NodeState := { s with awake := true }

/-- `/reset`: set `AWAKE = True`, clear `RECEIVED_MESSAGES`, rebuild
`STATE` with initial prime value and sender, `msg_id` one past the old
counter, and the bootstrap peer (when configured) re-inserted with a fresh
timestamp. -/
def reset (cfg : Config) (now : ℚ) (s : NodeState) : NodeState :=
  { peers := cfg.bootstrap.elim [] (fun b => [(b, now)])
    biggest_prime := 2
    biggest_prime_sender := cfg.myPort
    msg_id := s.msg_id + 1
    received := []
    awake := true }

/-- The consecutive message-id values `c, c+1, ..., c+n-1` handed out by the
monotonically increasing counter during a fan-out of `n` sends. -/
def idsFrom : Int → Nat → List Int
  | _, 0 => []
  | c, n + 1 => c :: idsFrom (c + 1) n

/-! ### Basic lemmas about `send_message_to` and the fan-out loop -/

theorem sendMessageTo_awake {cfg : Config} {peer : Nat} {mt : MsgType}
    {ttl : Int} {data : Option Int} {origin : Nat} {fwd : Bool}
    {outcome : NetOutcome} {s : NodeState} (hA : s.awake = true) :
    sendMessageTo cfg peer mt ttl data origin fwd outcome s =
      ({ s with msg_id := s.msg_id + 1 },
       [{ peer := peer
          env := { msg_type := mt, ttl := ttl, data := data
                   msg_id := s.msg_id
                   msg_originator := if fwd then origin else cfg.myPort
                   msg_forwarder := cfg.myPort }
          outcome := outcome }]) := by
  simp [sendMessageTo, hA]

theorem sendMessageTo_asleep {cfg : Config} {peer : Nat} {mt : MsgType}
    {ttl : Int} {data : Option Int} {origin : Nat} {fwd : Bool}
    {outcome : NetOutcome} {s : NodeState} (h : s.awake = false) :
    sendMessageTo cfg peer mt ttl data origin fwd outcome s = (s, []) := by
  simp [sendMessageTo, h]

theorem sendEach_asleep {cfg : Config} {netOf : Nat → NetOutcome}
    {ps : List Nat} {mt : MsgType} {ttl : Int} {data : Option Int}
    {origin : Nat} {fwd : Bool} {s : NodeState} (h : s.awake = false) :
    sendEach cfg netOf ps mt ttl data origin fwd s = (s, []) := by
  induction ps with
  | nil => rfl
  | cons p rest ih =>
      simp only [sendEach, sendMessageTo_asleep h]
      simp [ih]

theorem sendEach_state_eq (cfg : Config) (netOf : Nat → NetOutcome)
    (ps : List Nat) (mt : MsgType) (ttl : Int) (data : Option Int)
    (origin : Nat) (fwd : Bool) (s : NodeState) :
    (sendEach cfg netOf ps mt ttl data origin fwd s).1 =
      { s with msg_id := (sendEach cfg netOf ps mt ttl data origin fwd s).1.msg_id } := by
  induction ps generalizing s with
  | nil => rfl
  | cons p rest ih =>
      simp only [sendEach]
      by_cases h : s.awake = true
      · rw [sendMessageTo_awake h]
        exact ih _
      · rw [sendMessageTo_asleep (by simpa using h)]
        exact ih _

theorem sendEach_fst {cfg : Config} {netOf : Nat → NetOutcome}
    {ps : List Nat} {mt : MsgType} {ttl : Int} {data : Option Int}
    {origin : Nat} {fwd : Bool} {s : NodeState} (hA : s.awake = true) :
    (sendEach cfg netOf ps mt ttl data origin fwd s).1 =
      { s with msg_id := s.msg_id + ps.length } := by
  induction ps generalizing s with
  | nil => simp [sendEach]
  | cons p rest ih =>
      simp only [sendEach]
      rw [sendMessageTo_awake hA]
      rw [@ih { s with msg_id := s.msg_id + 1 } hA]
      congr 1
      simp only [List.length_cons]
      push_cast
      ring

theorem sendEach_proj {cfg : Config} {netOf : Nat → NetOutcome}
    {ps : List Nat} {mt : MsgType} {ttl : Int} {data : Option Int}
    {origin : Nat} {fwd : Bool} {s : NodeState} (hA : s.awake = true) :
    (sendEach cfg netOf ps mt ttl data origin fwd s).2.map
        (fun t => (t.peer, t.env.msg_type, t.env.ttl, t.env.data,
                   t.env.msg_originator, t.env.msg_forwarder, t.outcome)) =
      ps.map (fun p => (p, mt, ttl, data,
                        if fwd then origin else cfg.myPort, cfg.myPort, netOf p)) := by
  induction ps generalizing s with
  | nil => rfl
  | cons p rest ih =>
      simp only [sendEach]
      rw [sendMessageTo_awake hA]
      simp only [List.map_append, List.map_cons, List.map_nil, List.singleton_append]
      rw [@ih { s with msg_id := s.msg_id + 1 } hA]

theorem sendEach_ids {cfg : Config} {netOf : Nat → NetOutcome}
    {ps : List Nat} {mt : MsgType} {ttl : Int} {data : Option Int}
    {origin : Nat} {fwd : Bool} {s : NodeState} (hA : s.awake = true) :
    (sendEach cfg netOf ps mt ttl data origin fwd s).2.map (fun t => t.env.msg_id) =
      idsFrom s.msg_id ps.length := by
  induction ps generalizing s with
  | nil => rfl
  | cons p rest ih =>
      simp only [sendEach]
      rw [sendMessageTo_awake hA]
      simp only [List.map_append, List.map_cons, List.map_nil, List.singleton_append,
        List.length_cons, idsFrom]
      rw [@ih { s with msg_id := s.msg_id + 1 } hA]

theorem sendEach_peers {cfg : Config} {netOf : Nat → NetOutcome}
    {ps : List Nat} {mt : MsgType} {ttl : Int} {data : Option Int}
    {origin : Nat} {fwd : Bool} {s : NodeState} (hA : s.awake = true) :
    (sendEach cfg netOf ps mt ttl data origin fwd s).2.map Sent.peer = ps := by
  induction ps generalizing s with
  | nil => rfl
  | cons p rest ih =>
      simp only [sendEach]
      rw [sendMessageTo_awake hA]
      simp only [List.map_append, List.map_cons, List.map_nil, List.singleton_append]
      rw [@ih { s with msg_id := s.msg_id + 1 } hA]

/-! ### Unfolding lemmas for `respond` -/

theorem respond_seen {cfg : Config} {netOf : Nat → NetOutcome} {now : ℚ}
    {mt : MsgType} {mid : Int} {fwd orig : Nat} {ttl : Int}
    {data : Option Int} {s : NodeState} (h : (mid, orig) ∈ s.received) :
    respond cfg netOf now mt mid fwd orig ttl data s = (s, [], true) := by
  simp only [respond, if_pos h]

theorem respond_self {cfg : Config} {netOf : Nat → NetOutcome} {now : ℚ}
    {mt : MsgType} {mid : Int} {fwd orig : Nat} {ttl : Int}
    {data : Option Int} {s : NodeState} (hN : (mid, orig) ∉ s.received)
    (hO : orig = cfg.myPort) :
    respond cfg netOf now mt mid fwd orig ttl data s =
      ({ s with received := (mid, orig) :: s.received }, [], true) := by
  simp only [respond, if_neg hN, if_pos hO]

theorem respond_ping {cfg : Config} {netOf : Nat → NetOutcome} {now : ℚ}
    {mid : Int} {fwd orig : Nat} {ttl : Int} {data : Option Int}
    {s : NodeState} (hN : (mid, orig) ∉ s.received) (hO : orig ≠ cfg.myPort) :
    respond cfg netOf now .ping mid fwd orig ttl data s =
      (let s2 := update_last_heard_from now fwd
        { s with received := (mid, orig) :: s.received }
       let r := sendMessageTo cfg orig .pong 0 none orig false (netOf orig) s2
       (r.1, r.2, true)) := by
  simp only [respond, if_neg hN, if_neg hO]

theorem respond_pong {cfg : Config} {netOf : Nat → NetOutcome} {now : ℚ}
    {mid : Int} {fwd orig : Nat} {ttl : Int} {data : Option Int}
    {s : NodeState} (hN : (mid, orig) ∉ s.received) (hO : orig ≠ cfg.myPort) :
    respond cfg netOf now .pong mid fwd orig ttl data s =
      (update_last_heard_from now fwd
        { s with received := (mid, orig) :: s.received }, [], true) := by
  simp only [respond, if_neg hN, if_neg hO]

theorem respond_prime {cfg : Config} {netOf : Nat → NetOutcome} {now : ℚ}
    {mid : Int} {fwd orig : Nat} {ttl : Int} {d : Int}
    {s : NodeState} (hN : (mid, orig) ∉ s.received) (hO : orig ≠ cfg.myPort) :
    respond cfg netOf now .prime mid fwd orig ttl (some d) s =
      (let s2 := update_last_heard_from now fwd
        { s with received := (mid, orig) :: s.received }
       let s3 : NodeState :=
         if s2.biggest_prime < d then
           { s2 with biggest_prime := d, biggest_prime_sender := orig }
         else s2
       let s4 := update_last_heard_from now orig s3
       if ttl = 0 then (s4, [], true)
       else
         let r := sendEach cfg netOf (s4.peers.map Prod.fst) .prime
                   (ttl - 1) (some d) orig true s4
         (r.1, r.2, true)) := by
  simp only [respond, if_neg hN, if_neg hO]

/-! ### Field projections of `update_last_heard_from` and `sendEach` -/

@[simp] theorem update_lhf_received (now : ℚ) (p : Nat) (s : NodeState) :
    (update_last_heard_from now p s).received = s.received := rfl

@[simp] theorem update_lhf_awake (now : ℚ) (p : Nat) (s : NodeState) :
    (update_last_heard_from now p s).awake = s.awake := rfl

@[simp] theorem update_lhf_msg_id (now : ℚ) (p : Nat) (s : NodeState) :
    (update_last_heard_from now p s).msg_id = s.msg_id := rfl

@[simp] theorem update_lhf_biggest (now : ℚ) (p : Nat) (s : NodeState) :
    (update_last_heard_from now p s).biggest_prime = s.biggest_prime := rfl

@[simp] theorem update_lhf_sender (now : ℚ) (p : Nat) (s : NodeState) :
    (update_last_heard_from now p s).biggest_prime_sender = s.biggest_prime_sender := rfl

@[simp] theorem update_lhf_peers (now : ℚ) (p : Nat) (s : NodeState) :
    (update_last_heard_from now p s).peers = updatePeers s.peers p now := rfl

@[simp] theorem sendEach_fst_received (cfg : Config) (netOf : Nat → NetOutcome)
    (ps : List Nat) (mt : MsgType) (ttl : Int) (data : Option Int)
    (origin : Nat) (fwd : Bool) (s : NodeState) :
    (sendEach cfg netOf ps mt ttl data origin fwd s).1.received = s.received := by
  rw [sendEach_state_eq]

@[simp] theorem sendEach_fst_awake (cfg : Config) (netOf : Nat → NetOutcome)
    (ps : List Nat) (mt : MsgType) (ttl : Int) (data : Option Int)
    (origin : Nat) (fwd : Bool) (s : NodeState) :
    (sendEach cfg netOf ps mt ttl data origin fwd s).1.awake = s.awake := by
  rw [sendEach_state_eq]

@[simp] theorem sendEach_fst_biggest (cfg : Config) (netOf : Nat → NetOutcome)
    (ps : List Nat) (mt : MsgType) (ttl : Int) (data : Option Int)
    (origin : Nat) (fwd : Bool) (s : NodeState) :
    (sendEach cfg netOf ps mt ttl data origin fwd s).1.biggest_prime = s.biggest_prime := by
  rw [sendEach_state_eq]

@[simp] theorem sendEach_fst_sender (cfg : Config) (netOf : Nat → NetOutcome)
    (ps : List Nat) (mt : MsgType) (ttl : Int) (data : Option Int)
    (origin : Nat) (fwd : Bool) (s : NodeState) :
    (sendEach cfg netOf ps mt ttl data origin fwd s).1.biggest_prime_sender =
      s.biggest_prime_sender := by
  rw [sendEach_state_eq]

@[simp] theorem sendEach_fst_peers (cfg : Config) (netOf : Nat → NetOutcome)
    (ps : List Nat) (mt : MsgType) (ttl : Int) (data : Option Int)
    (origin : Nat) (fwd : Bool) (s : NodeState) :
    (sendEach cfg netOf ps mt ttl data origin fwd s).1.peers = s.peers := by
  rw [sendEach_state_eq]

/-- The seen set after `respond`: the identity of the processed message is
inserted on first receipt, and nothing else ever changes it. -/
theorem respond_received_eq (cfg : Config) (netOf : Nat → NetOutcome)
    (now : ℚ) (mt : MsgType) (mid : Int) (fwd orig : Nat) (ttl : Int)
    (data : Option Int) (s : NodeState) :
    (respond cfg netOf now mt mid fwd orig ttl data s).1.received =
      if (mid, orig) ∈ s.received then s.received
      else (mid, orig) :: s.received := by
  by_cases hSeen : (mid, orig) ∈ s.received
  · simp [respond_seen hSeen, hSeen]
  · rw [if_neg hSeen]
    by_cases hO : orig = cfg.myPort
    · rw [respond_self hSeen hO]
    · cases mt with
      | ping =>
          rw [respond_ping hSeen hO]
          simp only []
          by_cases hA : s.awake = true
          · rw [sendMessageTo_awake (by simpa using hA)]
            rfl
          · rw [sendMessageTo_asleep (by simpa using hA)]
            rfl
      | pong =>
          rw [respond_pong hSeen hO]
          rfl
      | prime =>
          cases data with
          | none =>
              simp only [respond, if_neg hSeen, if_neg hO]
              rfl
          | some d =>
              rw [respond_prime hSeen hO]
              simp only []
              by_cases httl : ttl = 0
              · rw [if_pos httl]
                simp only [update_lhf_received]
                split <;> rfl
              · rw [if_neg httl]
                simp only [sendEach_fst_received, update_lhf_received]
                split <;> rfl

/-- After any call to `respond`, the identity of the processed message is in
the seen set. -/
theorem respond_mem_received (cfg : Config) (netOf : Nat → NetOutcome)
    (now : ℚ) (mt : MsgType) (mid : Int) (fwd orig : Nat) (ttl : Int)
    (data : Option Int) (s : NodeState) :
    (mid, orig) ∈ (respond cfg netOf now mt mid fwd orig ttl data s).1.received := by
  rw [respond_received_eq]
  by_cases hSeen : (mid, orig) ∈ s.received
  · rw [if_pos hSeen]; exact hSeen
  · rw [if_neg hSeen]; exact List.mem_cons_self _ _

/-! ### Concrete fixtures used by witnesses and counterexamples -/

/-- A node on port 5000 with no bootstrap peer. -/
def cfgW : Config := { myPort := 5000, bootstrap := none }

/-- A node on port 5000 bootstrapped with peer 5001. -/
def cfgB : Config := { myPort := 5000, bootstrap := some 5001 }

/-- A network oracle where every delivery succeeds. -/
def netW : Nat → NetOutcome := fun _ => NetOutcome.delivered

/-- An awake node that knows peers 5001 and 5002. -/
def sW : NodeState :=
  { peers := [(5001, 0), (5002, 0)], biggest_prime := 2,
    biggest_prime_sender := 5000, msg_id := 0, received := [], awake := true }

/-- An empty-peer-table awake node. -/
def sE : NodeState :=
  { peers := [], biggest_prime := 2, biggest_prime_sender := 5000,
    msg_id := 0, received := [], awake := true }

/-! ### C1: relay of a novel PRIME announcement -/

/-- C1 (counterexample): the claim says the relayed copies carry the
incoming `msg_id` unchanged, but `send_message_to` stamps every outbound
message with the forwarding node's own counter.  A node with counter 0
receiving a novel PRIME with `msg_id = 5` (originator 5001, ttl 2, data 7)
relays exactly one copy, and that copy carries `msg_id = 0`, not 5. -/
theorem C1_counterexample :
    ((respond cfgW netW 0 MsgType.prime 5 5001 5001 2 (some 7) sE).2.1.map
        (fun t => t.env.msg_id) = [0]) ∧
    ((respond cfgW netW 0 MsgType.prime 5 5001 5001 2 (some 7) sE).2.1.map
        (fun t => t.env.msg_originator) = [5001]) ∧
    (5 : Int) ≠ 0 := by
  decide

/-- C1 (amended): for an inbound PRIME whose identity is novel and whose
originator is not this node, an awake node applies the observe rule, and —
whenever `ttl > 0` — sends one copy to every peer then in the peer table
(the forwarder and the originator having just been refreshed into it),
regardless of adoption, with `ttl` decremented, `forwarder = self`, `data`
and `originator` unchanged, and `msg_id` reassigned from the node's own
counter (consecutive fresh values, one per peer); at `ttl == 0` no relay
occurs. -/
theorem C1_relay_amended (cfg : Config) (netOf : Nat → NetOutcome)
    (now : ℚ) (mid : Int) (fwd orig : Nat) (ttl : Int) (d : Int)
    (s : NodeState) (hA : s.awake = true)
    (hN : (mid, orig) ∉ s.received) (hO : orig ≠ cfg.myPort) :
    ((respond cfg netOf now .prime mid fwd orig ttl (some d) s).1.biggest_prime
        = if s.biggest_prime < d then d else s.biggest_prime) ∧
    ((respond cfg netOf now .prime mid fwd orig ttl (some d) s).1.biggest_prime_sender
        = if s.biggest_prime < d then orig else s.biggest_prime_sender) ∧
    (ttl = 0 →
      (respond cfg netOf now .prime mid fwd orig ttl (some d) s).2.1 = []) ∧
    (0 < ttl →
      (respond cfg netOf now .prime mid fwd orig ttl (some d) s).2.1.map
          (fun t => (t.peer, t.env.msg_type, t.env.ttl, t.env.data,
                     t.env.msg_originator, t.env.msg_forwarder, t.outcome)) =
        ((updatePeers (updatePeers s.peers fwd now) orig now).map Prod.fst).map
          (fun p => (p, MsgType.prime, ttl - 1, some d, orig, cfg.myPort, netOf p)) ∧
      (respond cfg netOf now .prime mid fwd orig ttl (some d) s).2.1.map
          (fun t => t.env.msg_id) =
        idsFrom s.msg_id (updatePeers (updatePeers s.peers fwd now) orig now).length) := by
  rw [respond_prime hN hO]
  simp only []
  refine ⟨?_, ?_, ?_, ?_⟩
  · by_cases httl : ttl = 0 <;> by_cases hd : s.biggest_prime < d <;>
      simp [httl, hd]
  · by_cases httl : ttl = 0 <;> by_cases hd : s.biggest_prime < d <;>
      simp [httl, hd]
  · intro h0
    simp [h0]
  · intro hpos
    have httl : ¬ ttl = 0 := by omega
    rw [if_neg httl]
    by_cases hd : s.biggest_prime < d <;>
      simp [hd, sendEach_proj, sendEach_ids, hA, List.length_map]

/-- C1 (witness): the amended relay theorem applied to a node with peers
5001 and 5002, inbound PRIME `msg_id 5`, originator 5001, ttl 2, data 7. -/
theorem C1_relay_witness :
    ((respond cfgW netW 0 .prime 5 6001 5001 2 (some 7) sW).1.biggest_prime
        = if sW.biggest_prime < 7 then 7 else sW.biggest_prime) ∧
    ((respond cfgW netW 0 .prime 5 6001 5001 2 (some 7) sW).1.biggest_prime_sender
        = if sW.biggest_prime < 7 then 5001 else sW.biggest_prime_sender) ∧
    ((2 : Int) = 0 →
      (respond cfgW netW 0 .prime 5 6001 5001 2 (some 7) sW).2.1 = []) ∧
    ((0 : Int) < 2 →
      (respond cfgW netW 0 .prime 5 6001 5001 2 (some 7) sW).2.1.map
          (fun t => (t.peer, t.env.msg_type, t.env.ttl, t.env.data,
                     t.env.msg_originator, t.env.msg_forwarder, t.outcome)) =
        ((updatePeers (updatePeers sW.peers 6001 0) 5001 0).map Prod.fst).map
          (fun p => (p, MsgType.prime, (2 : Int) - 1, some 7, 5001, cfgW.myPort, netW p)) ∧
      (respond cfgW netW 0 .prime 5 6001 5001 2 (some 7) sW).2.1.map
          (fun t => t.env.msg_id) =
        idsFrom sW.msg_id (updatePeers (updatePeers sW.peers 6001 0) 5001 0).length) :=
  C1_relay_amended cfgW netW 0 5 6001 5001 2 7 sW (by decide) (by decide) (by decide)

/-! ### C3: dedup idempotence under repeated delivery -/

/-- Delivering the same inbound envelope `n` times in a row through the
routed `/receive` handler. -/
def deliverNTimes (cfg : Config) (netOf : Nat → NetOutcome) (now : ℚ)
    (mt : MsgType) (mid : Int) (fwd orig : Nat) (ttl : Int)
    (data : Option Int) : Nat → NodeState → NodeState
  | 0, s => s
  | n + 1, s =>
      deliverNTimes cfg netOf now mt mid fwd orig ttl data n
        (receive_as_routed cfg netOf now mt mid fwd orig ttl data s).1

/-- An envelope whose identity is already in the seen set is discarded:
no state change, no outbound message. -/
theorem receive_as_routed_seen {cfg : Config} {netOf : Nat → NetOutcome}
    {now : ℚ} {mt : MsgType} {mid : Int} {fwd orig : Nat} {ttl : Int}
    {data : Option Int} {s : NodeState} (h : (mid, orig) ∈ s.received) :
    receive_as_routed cfg netOf now mt mid fwd orig ttl data s = (s, []) := by
  simp [receive_as_routed, respond_seen h]

/-- Once the identity is in the seen set, any number of re-deliveries
leaves the state fixed. -/
theorem deliverNTimes_fixed (cfg : Config) (netOf : Nat → NetOutcome)
    (now : ℚ) (mt : MsgType) (mid : Int) (fwd orig : Nat) (ttl : Int)
    (data : Option Int) (n : Nat) (s : NodeState)
    (h : (mid, orig) ∈ s.received) :
    deliverNTimes cfg netOf now mt mid fwd orig ttl data n s = s := by
  induction n with
  | zero => rfl
  | succ k ih =>
      simp only [deliverNTimes, receive_as_routed_seen h]
      exact ih

/-- C3: delivering the same envelope to an awake node `n ≥ 1` times yields
the same state as delivering it once, and a re-receipt of the delivered
identity is a no-op producing no outbound messages. -/
theorem C3_dedup_idempotent (cfg : Config) (netOf : Nat → NetOutcome)
    (now : ℚ) (mt : MsgType) (mid : Int) (fwd orig : Nat) (ttl : Int)
    (data : Option Int) (s : NodeState) (hA : s.awake = true)
    (n : Nat) (hn : 1 ≤ n) :
    deliverNTimes cfg netOf now mt mid fwd orig ttl data n s =
      deliverNTimes cfg netOf now mt mid fwd orig ttl data 1 s ∧
    (receive_as_routed cfg netOf now mt mid fwd orig ttl data
        (deliverNTimes cfg netOf now mt mid fwd orig ttl data 1 s)).1 =
      deliverNTimes cfg netOf now mt mid fwd orig ttl data 1 s ∧
    (receive_as_routed cfg netOf now mt mid fwd orig ttl data
        (deliverNTimes cfg netOf now mt mid fwd orig ttl data 1 s)).2 = [] := by
  have hone : deliverNTimes cfg netOf now mt mid fwd orig ttl data 1 s =
      (receive_as_routed cfg netOf now mt mid fwd orig ttl data s).1 := rfl
  have hmem : (mid, orig) ∈
      (deliverNTimes cfg netOf now mt mid fwd orig ttl data 1 s).received := by
    rw [hone]
    exact respond_mem_received cfg netOf now mt mid fwd orig ttl data s
  refine ⟨?_, ?_, ?_⟩
  · obtain ⟨k, rfl⟩ : ∃ k, n = k + 1 := ⟨n - 1, by omega⟩
    show deliverNTimes cfg netOf now mt mid fwd orig ttl data k
        (receive_as_routed cfg netOf now mt mid fwd orig ttl data s).1 = _
    rw [← hone]
    exact deliverNTimes_fixed cfg netOf now mt mid fwd orig ttl data k _ hmem
  · rw [receive_as_routed_seen hmem]
  · rw [receive_as_routed_seen hmem]

/-- C3 (witness): three deliveries of a PRIME announcement to the two-peer
node equal one delivery, and the re-receipt is a no-op. -/
theorem C3_witness :
    deliverNTimes cfgW netW 0 .prime 1 5001 5001 2 (some 7) 3 sW =
      deliverNTimes cfgW netW 0 .prime 1 5001 5001 2 (some 7) 1 sW ∧
    (receive_as_routed cfgW netW 0 .prime 1 5001 5001 2 (some 7)
        (deliverNTimes cfgW netW 0 .prime 1 5001 5001 2 (some 7) 1 sW)).1 =
      deliverNTimes cfgW netW 0 .prime 1 5001 5001 2 (some 7) 1 sW ∧
    (receive_as_routed cfgW netW 0 .prime 1 5001 5001 2 (some 7)
        (deliverNTimes cfgW netW 0 .prime 1 5001 5001 2 (some 7) 1 sW)).2 = [] :=
  C3_dedup_idempotent cfgW netW 0 .prime 1 5001 5001 2 (some 7) sW
    (by decide) 3 (by decide)

/-! ### C2: the sleep gate on the inbound path -/

/-- An asleep node that knows peer 5001. -/
def sAsleep : NodeState :=
  { peers := [(5001, 0)], biggest_prime := 2, biggest_prime_sender := 5000,
    msg_id := 0, received := [], awake := false }

/-- C2 (failing input): in the source, `only_if_awake` is written above
`app.route` on `receive`, so Flask registers and dispatches the unwrapped
handler: an inbound PRIME processed while `AWAKE == False` still mutates
the seen set, the peer table and the best value (outbound traffic alone is
suppressed, because `send_message_to` is gated directly).  This evaluates
that routed handler on an asleep node: the state changes. -/
theorem C2_asleep_receive_mutates :
    sAsleep.awake = false ∧
    sAsleep.biggest_prime = 2 ∧
    (receive_as_routed cfgW netW 1 .prime 1 5001 5001 0 (some 7) sAsleep).1.biggest_prime = 7 ∧
    (receive_as_routed cfgW netW 1 .prime 1 5001 5001 0 (some 7) sAsleep).1.biggest_prime_sender = 5001 ∧
    (receive_as_routed cfgW netW 1 .prime 1 5001 5001 0 (some 7) sAsleep).1.received = [(1, 5001)] ∧
    (receive_as_routed cfgW netW 1 .prime 1 5001 5001 0 (some 7) sAsleep).1.peers = [(5001, 1)] ∧
    (receive_as_routed cfgW netW 1 .prime 1 5001 5001 0 (some 7) sAsleep).2 = [] := by
  decide

/-! ### C10: reset unconditionally wakes the node -/

/-- C10: `reset` sets `AWAKE = True` unconditionally, so resetting a
sleeping node also wakes it. -/
theorem C10_reset_wakes (cfg : Config) (now : ℚ) (s : NodeState) :
    (reset cfg now s).awake = true ∧ (reset cfg now (sleep s)).awake = true :=
  ⟨rfl, rfl⟩

/-! ### C4: reset -/

/-- C4 (counterexample): on a node started with a bootstrap peer
(`sys.argv[2]`), `reset()` does not leave the peer table empty — the
bootstrap peer is re-inserted with a fresh timestamp. -/
theorem C4_counterexample :
    (reset cfgB 3 sW).peers = [(5001, 3)] ∧ (reset cfgB 3 sW).peers ≠ [] := by
  decide

/-- C4 (amended): `reset()` empties the seen set; empties the peer table
except that the bootstrap peer given at startup, when one was configured,
is re-inserted with a fresh timestamp; restores `biggest_prime` to 2 and
its sender to self; and sets the `msg_id` counter to one more than the old
counter, hence strictly above every previously assigned value. -/
theorem C4_reset_amended (cfg : Config) (now : ℚ) (s : NodeState) :
    (reset cfg now s).received = [] ∧
    (cfg.bootstrap = none → (reset cfg now s).peers = []) ∧
    (∀ b, cfg.bootstrap = some b → (reset cfg now s).peers = [(b, now)]) ∧
    (reset cfg now s).biggest_prime = 2 ∧
    (reset cfg now s).biggest_prime_sender = cfg.myPort ∧
    (reset cfg now s).msg_id = s.msg_id + 1 ∧
    (∀ i : Int, i < s.msg_id → i < (reset cfg now s).msg_id) := by
  refine ⟨rfl, ?_, ?_, rfl, rfl, rfl, ?_⟩
  · intro h
    simp [reset, h]
  · intro b h
    simp [reset, h]
  · intro i h
    simp only [reset]
    omega

/-- C4 (witness): the amended reset theorem applied to the bootstrapped
node at time 3: the seen set empties, the bootstrap peer 5001 is
re-inserted at time 3, the counter moves one past the old value, and the
old id 0 stays below the new counter. -/
theorem C4_witness :
    (reset cfgB 3 sW).received = [] ∧
    (reset cfgB 3 sW).peers = [(5001, (3 : ℚ))] ∧
    (reset cfgB 3 sW).biggest_prime = 2 ∧
    (reset cfgB 3 sW).biggest_prime_sender = cfgB.myPort ∧
    (reset cfgB 3 sW).msg_id = sW.msg_id + 1 ∧
    (-1 : Int) < (reset cfgB 3 sW).msg_id :=
  ⟨(C4_reset_amended cfgB 3 sW).1,
   (C4_reset_amended cfgB 3 sW).2.2.1 5001 (by decide),
   (C4_reset_amended cfgB 3 sW).2.2.2.1,
   (C4_reset_amended cfgB 3 sW).2.2.2.2.1,
   (C4_reset_amended cfgB 3 sW).2.2.2.2.2.1,
   (C4_reset_amended cfgB 3 sW).2.2.2.2.2.2 (-1) (by decide)⟩

/-! ### C5: observe adopts exactly on strict increase; monotone value -/

/-- The fields of one inbound envelope, for stating properties of message
sequences. -/
structure Inbound where
  mt : MsgType
  mid : Int
  fwd : Nat
  orig : Nat
  ttl : Int
  data : Option Int
deriving DecidableEq, Repr

/-- Process a sequence of inbound envelopes in arrival order. -/
def processList (cfg : Config) (netOf : Nat → NetOutcome) (now : ℚ) :
    List Inbound → NodeState → NodeState
  | [], s => s
  | m :: rest, s =>
      processList cfg netOf now rest
        (respond cfg netOf now m.mt m.mid m.fwd m.orig m.ttl m.data s).1

/-- `biggest_prime` never decreases across a single `respond` call. -/
theorem respond_biggest_mono (cfg : Config) (netOf : Nat → NetOutcome)
    (now : ℚ) (mt : MsgType) (mid : Int) (fwd orig : Nat) (ttl : Int)
    (data : Option Int) (s : NodeState) :
    s.biggest_prime ≤ (respond cfg netOf now mt mid fwd orig ttl data s).1.biggest_prime := by
  by_cases hSeen : (mid, orig) ∈ s.received
  · rw [respond_seen hSeen]
  · by_cases hO : orig = cfg.myPort
    · rw [respond_self hSeen hO]
    · cases mt with
      | ping =>
          rw [respond_ping hSeen hO]
          simp only []
          by_cases hA : s.awake = true
          · rw [sendMessageTo_awake (by simpa using hA)]
            simp
          · rw [sendMessageTo_asleep (by simpa using hA)]
            simp
      | pong =>
          rw [respond_pong hSeen hO]
          simp
      | prime =>
          cases data with
          | none =>
              simp [respond, if_neg hSeen, if_neg hO]
          | some d =>
              rw [respond_prime hSeen hO]
              simp only []
              by_cases httl : ttl = 0 <;> by_cases hd : s.biggest_prime < d <;>
                simp [httl, hd] <;> omega

/-- `biggest_prime` never decreases across any sequence of inbound
envelopes. -/
theorem processList_biggest_mono (cfg : Config) (netOf : Nat → NetOutcome)
    (now : ℚ) (msgs : List Inbound) (s : NodeState) :
    s.biggest_prime ≤ (processList cfg netOf now msgs s).biggest_prime := by
  induction msgs generalizing s with
  | nil => exact le_refl _
  | cons m rest ih =>
      exact le_trans
        (respond_biggest_mono cfg netOf now m.mt m.mid m.fwd m.orig m.ttl m.data s)
        (ih _)

/-- C5: processing a novel, non-self PRIME announcement adopts the
candidate (value and source) exactly when it strictly exceeds the current
best value and otherwise leaves both unchanged; and `best_value` is
non-decreasing over any sequence of inbound messages. -/
theorem C5_observe_monotone :
    (∀ (cfg : Config) (netOf : Nat → NetOutcome) (now : ℚ) (mid : Int)
        (fwd orig : Nat) (ttl : Int) (d : Int) (s : NodeState),
        (mid, orig) ∉ s.received → orig ≠ cfg.myPort →
        ((s.biggest_prime < d →
            (respond cfg netOf now .prime mid fwd orig ttl (some d) s).1.biggest_prime = d ∧
            (respond cfg netOf now .prime mid fwd orig ttl (some d) s).1.biggest_prime_sender = orig) ∧
         (¬ s.biggest_prime < d →
            (respond cfg netOf now .prime mid fwd orig ttl (some d) s).1.biggest_prime = s.biggest_prime ∧
            (respond cfg netOf now .prime mid fwd orig ttl (some d) s).1.biggest_prime_sender = s.biggest_prime_sender))) ∧
    (∀ (cfg : Config) (netOf : Nat → NetOutcome) (now : ℚ)
        (msgs : List Inbound) (s : NodeState),
        s.biggest_prime ≤ (processList cfg netOf now msgs s).biggest_prime) := by
  constructor
  · intro cfg netOf now mid fwd orig ttl d s hN hO
    rw [respond_prime hN hO]
    simp only []
    constructor
    · intro hd
      by_cases httl : ttl = 0 <;> simp [httl, hd]
    · intro hd
      by_cases httl : ttl = 0 <;> simp [httl, hd]
  · exact processList_biggest_mono

/-- C5 (witness): the two-peer node adopts 7 from originator 5001 (since
`7 > 2`), and value monotonicity holds on a concrete message sequence. -/
theorem C5_witness :
    ((respond cfgW netW 0 .prime 1 5001 5001 0 (some 7) sW).1.biggest_prime = 7 ∧
     (respond cfgW netW 0 .prime 1 5001 5001 0 (some 7) sW).1.biggest_prime_sender = 5001) ∧
    sW.biggest_prime ≤
      (processList cfgW netW 0
        [{ mt := .prime, mid := 1, fwd := 5001, orig := 5001, ttl := 0, data := some 7 },
         { mt := .prime, mid := 2, fwd := 5002, orig := 5002, ttl := 0, data := some 3 }]
        sW).biggest_prime :=
  ⟨(C5_observe_monotone.1 cfgW netW 0 1 5001 5001 0 7 sW (by decide) (by decide)).1
      (by decide),
   C5_observe_monotone.2 cfgW netW 0
     [{ mt := .prime, mid := 1, fwd := 5001, orig := 5001, ttl := 0, data := some 7 },
      { mt := .prime, mid := 2, fwd := 5002, orig := 5002, ttl := 0, data := some 3 }] sW⟩

/-! ### C8: heartbeat round trip -/

/-- C8: a novel PING from another node refreshes the sender's (forwarder's)
peer record and produces exactly one PONG sent point-to-point to the
heartbeat's originator with `ttl = 0` and no payload — no relay to any
third node; a novel PONG refreshes the sender's peer record and produces
nothing else, leaving value state and the counter alone. -/
theorem C8_heartbeat (cfg : Config) (netOf : Nat → NetOutcome) (now : ℚ)
    (mid : Int) (fwd orig : Nat) (ttl : Int) (data : Option Int)
    (s : NodeState) (hA : s.awake = true)
    (hN : (mid, orig) ∉ s.received) (hO : orig ≠ cfg.myPort) :
    ((respond cfg netOf now .ping mid fwd orig ttl data s).2.1 =
      [{ peer := orig
         env := { msg_type := .pong, ttl := 0, data := none
                  msg_id := s.msg_id
                  msg_originator := cfg.myPort, msg_forwarder := cfg.myPort }
         outcome := netOf orig }]) ∧
    (respond cfg netOf now .ping mid fwd orig ttl data s).1.peers =
      updatePeers s.peers fwd now ∧
    (respond cfg netOf now .ping mid fwd orig ttl data s).1.biggest_prime =
      s.biggest_prime ∧
    (respond cfg netOf now .ping mid fwd orig ttl data s).1.biggest_prime_sender =
      s.biggest_prime_sender ∧
    (respond cfg netOf now .ping mid fwd orig ttl data s).1.msg_id = s.msg_id + 1 ∧
    ((respond cfg netOf now .pong mid fwd orig ttl data s).2.1 = []) ∧
    (respond cfg netOf now .pong mid fwd orig ttl data s).1.peers =
      updatePeers s.peers fwd now ∧
    (respond cfg netOf now .pong mid fwd orig ttl data s).1.biggest_prime =
      s.biggest_prime ∧
    (respond cfg netOf now .pong mid fwd orig ttl data s).1.biggest_prime_sender =
      s.biggest_prime_sender ∧
    (respond cfg netOf now .pong mid fwd orig ttl data s).1.msg_id = s.msg_id := by
  rw [respond_ping hN hO, respond_pong hN hO]
  simp only []
  rw [sendMessageTo_awake (by simpa using hA)]
  simp

/-- C8 (witness): the heartbeat theorem applied to the two-peer node, PING
with id 4 forwarded and originated by 5002. -/
theorem C8_witness :
    ((respond cfgW netW 2 .ping 4 5002 5002 0 none sW).2.1 =
      [{ peer := 5002
         env := { msg_type := .pong, ttl := 0, data := none
                  msg_id := sW.msg_id
                  msg_originator := cfgW.myPort, msg_forwarder := cfgW.myPort }
         outcome := netW 5002 }]) ∧
    (respond cfgW netW 2 .ping 4 5002 5002 0 none sW).1.peers =
      updatePeers sW.peers 5002 2 ∧
    (respond cfgW netW 2 .ping 4 5002 5002 0 none sW).1.biggest_prime =
      sW.biggest_prime ∧
    (respond cfgW netW 2 .ping 4 5002 5002 0 none sW).1.biggest_prime_sender =
      sW.biggest_prime_sender ∧
    (respond cfgW netW 2 .ping 4 5002 5002 0 none sW).1.msg_id = sW.msg_id + 1 ∧
    ((respond cfgW netW 2 .pong 4 5002 5002 0 none sW).2.1 = []) ∧
    (respond cfgW netW 2 .pong 4 5002 5002 0 none sW).1.peers =
      updatePeers sW.peers 5002 2 ∧
    (respond cfgW netW 2 .pong 4 5002 5002 0 none sW).1.biggest_prime =
      sW.biggest_prime ∧
    (respond cfgW netW 2 .pong 4 5002 5002 0 none sW).1.biggest_prime_sender =
      sW.biggest_prime_sender ∧
    (respond cfgW netW 2 .pong 4 5002 5002 0 none sW).1.msg_id = sW.msg_id :=
  C8_heartbeat cfgW netW 2 4 5002 5002 0 none sW (by decide) (by decide) (by decide)

/-! ### C6: local advancement and epidemic push -/

/-- C6: when the node advances the value locally while awake, it adopts
`find_next(biggest_prime)` with itself as sender and sends one fresh PRIME
announcement with `ttl = 2`, `data` = the new value, `originator = self`,
to each of `k = min(INFECTION_FACTOR, peer_count)` distinct peers drawn
from the peer table by the sampling oracle, each send carrying its own
newly assigned consecutive `msg_id`.  The hypotheses on `choose` are
exactly the contract of `random.sample(population, k)` for `k ≤ |population|`. -/
theorem C6_origination (cfg : Config) (netOf : Nat → NetOutcome)
    (choose : List Nat → Nat → List Nat) (find_next : Int → Int)
    (s : NodeState) (hA : s.awake = true)
    (hnd : (s.peers.map Prod.fst).Nodup)
    (hlen : ∀ l k, k ≤ l.length → (choose l k).length = k)
    (hmem : ∀ l k p, p ∈ choose l k → p ∈ l)
    (hcnd : ∀ l k, l.Nodup → (choose l k).Nodup) :
    (generate_next_mersenne_prime cfg netOf choose find_next s).1.biggest_prime =
      find_next s.biggest_prime ∧
    (generate_next_mersenne_prime cfg netOf choose find_next s).1.biggest_prime_sender =
      cfg.myPort ∧
    (generate_next_mersenne_prime cfg netOf choose find_next s).2.length =
      min INFECTION_FACTOR s.peers.length ∧
    ((generate_next_mersenne_prime cfg netOf choose find_next s).2.map Sent.peer).Nodup ∧
    (∀ t ∈ (generate_next_mersenne_prime cfg netOf choose find_next s).2,
        t.peer ∈ s.peers.map Prod.fst) ∧
    (generate_next_mersenne_prime cfg netOf choose find_next s).2.map
        (fun t => (t.peer, t.env.msg_type, t.env.ttl, t.env.data,
                   t.env.msg_originator, t.env.msg_forwarder, t.outcome)) =
      (choose (s.peers.map Prod.fst) (min INFECTION_FACTOR s.peers.length)).map
        (fun p => (p, MsgType.prime, (2 : Int), some (find_next s.biggest_prime),
                   cfg.myPort, cfg.myPort, netOf p)) ∧
    (generate_next_mersenne_prime cfg netOf choose find_next s).2.map
        (fun t => t.env.msg_id) =
      idsFrom s.msg_id (min INFECTION_FACTOR s.peers.length) := by
  have hk : min INFECTION_FACTOR s.peers.length ≤ (s.peers.map Prod.fst).length := by
    simp [Nat.min_le_right]
  have hgen : generate_next_mersenne_prime cfg netOf choose find_next s =
      sendEach cfg netOf
        (choose (s.peers.map Prod.fst) (min INFECTION_FACTOR s.peers.length))
        .prime 2 (some (find_next s.biggest_prime)) cfg.myPort false
        { s with biggest_prime := find_next s.biggest_prime
                 biggest_prime_sender := cfg.myPort } := by
    simp [generate_next_mersenne_prime, gossip_prime_number, hA]
  have hA1 : (NodeState.awake
      { s with biggest_prime := find_next s.biggest_prime
               biggest_prime_sender := cfg.myPort }) = true := hA
  have hpeers := @sendEach_peers cfg netOf
    (choose (s.peers.map Prod.fst) (min INFECTION_FACTOR s.peers.length))
    .prime 2 (some (find_next s.biggest_prime)) cfg.myPort false
    { s with biggest_prime := find_next s.biggest_prime
             biggest_prime_sender := cfg.myPort } hA1
  refine ⟨?_, ?_, ?_, ?_, ?_, ?_, ?_⟩
  · rw [hgen, sendEach_fst_biggest]
  · rw [hgen, sendEach_fst_sender]
  · rw [hgen]
    have := congrArg List.length hpeers
    simpa [hlen _ _ hk] using this
  · rw [hgen, hpeers]
    exact hcnd _ _ hnd
  · intro t ht
    rw [hgen] at ht
    have : t.peer ∈ (sendEach cfg netOf
        (choose (s.peers.map Prod.fst) (min INFECTION_FACTOR s.peers.length))
        .prime 2 (some (find_next s.biggest_prime)) cfg.myPort false
        { s with biggest_prime := find_next s.biggest_prime
                 biggest_prime_sender := cfg.myPort }).2.map Sent.peer :=
      List.mem_map_of_mem Sent.peer ht
    rw [hpeers] at this
    exact hmem _ _ _ this
  · rw [hgen]
    have := @sendEach_proj cfg netOf
      (choose (s.peers.map Prod.fst) (min INFECTION_FACTOR s.peers.length))
      .prime 2 (some (find_next s.biggest_prime)) cfg.myPort false
      { s with biggest_prime := find_next s.biggest_prime
               biggest_prime_sender := cfg.myPort } hA1
    simpa using this
  · rw [hgen]
    have := @sendEach_ids cfg netOf
      (choose (s.peers.map Prod.fst) (min INFECTION_FACTOR s.peers.length))
      .prime 2 (some (find_next s.biggest_prime)) cfg.myPort false
      { s with biggest_prime := find_next s.biggest_prime
               biggest_prime_sender := cfg.myPort } hA1
    rw [this]
    simp [hlen _ _ hk]

/-- `random.sample` modelled as taking the first `k` elements, for the
witness below: it satisfies the sampling contract. -/
def takeSample : List Nat → Nat → List Nat := fun l k => l.take k

/-- C6 (witness): the origination theorem applied to the two-peer node
with the prefix sampler and successor-doubling as the external numeric
collaborator. -/
theorem C6_witness :
    (generate_next_mersenne_prime cfgW netW takeSample
        (fun n => 2 * n + 1) sW).1.biggest_prime = (fun n : Int => 2 * n + 1) sW.biggest_prime ∧
    (generate_next_mersenne_prime cfgW netW takeSample
        (fun n => 2 * n + 1) sW).1.biggest_prime_sender = cfgW.myPort ∧
    (generate_next_mersenne_prime cfgW netW takeSample
        (fun n => 2 * n + 1) sW).2.length = min INFECTION_FACTOR sW.peers.length ∧
    ((generate_next_mersenne_prime cfgW netW takeSample
        (fun n => 2 * n + 1) sW).2.map Sent.peer).Nodup ∧
    (∀ t ∈ (generate_next_mersenne_prime cfgW netW takeSample
        (fun n => 2 * n + 1) sW).2, t.peer ∈ sW.peers.map Prod.fst) ∧
    (generate_next_mersenne_prime cfgW netW takeSample
        (fun n => 2 * n + 1) sW).2.map
        (fun t => (t.peer, t.env.msg_type, t.env.ttl, t.env.data,
                   t.env.msg_originator, t.env.msg_forwarder, t.outcome)) =
      (takeSample (sW.peers.map Prod.fst) (min INFECTION_FACTOR sW.peers.length)).map
        (fun p => (p, MsgType.prime, (2 : Int),
                   some ((fun n : Int => 2 * n + 1) sW.biggest_prime),
                   cfgW.myPort, cfgW.myPort, netW p)) ∧
    (generate_next_mersenne_prime cfgW netW takeSample
        (fun n => 2 * n + 1) sW).2.map (fun t => t.env.msg_id) =
      idsFrom sW.msg_id (min INFECTION_FACTOR sW.peers.length) :=
  C6_origination cfgW netW takeSample (fun n => 2 * n + 1) sW
    (by decide) (by decide)
    (fun l k h => by simp [takeSample, List.length_take]; omega)
    (fun l k p hp => List.mem_of_mem_take hp)
    (fun l k h => (List.take_sublist k l).nodup h)

/-! ### C7: peer eviction -/

/-- With pairwise-distinct keys, erasing the first entry matching a key is
the same as filtering that key out. -/
theorem eraseP_key_eq_filter {l : List (Nat × ℚ)} {k : Nat}
    (h : (l.map Prod.fst).Nodup) :
    l.eraseP (fun pr => pr.1 == k) = l.filter (fun pr => pr.1 != k) := by
  induction l with
  | nil => rfl
  | cons a rest ih =>
      rw [List.map_cons, List.nodup_cons] at h
      obtain ⟨hnot, hnd⟩ := h
      by_cases hk : a.1 = k
      · rw [List.eraseP_cons_of_pos (by simp [hk])]
        rw [List.filter_cons_of_neg (by simp [hk])]
        refine (List.filter_eq_self.mpr fun b hb => ?_).symm
        have hbk : b.1 ≠ k := by
          intro e
          have hmem : b.1 ∈ rest.map Prod.fst := List.mem_map_of_mem Prod.fst hb
          rw [e, ← hk] at hmem
          exact hnot hmem
        simp [hbk]
      · rw [List.eraseP_cons_of_neg (by simp [hk])]
        rw [List.filter_cons_of_pos (by simp [hk])]
        rw [ih hnd]

/-- Popping a list of keys one by one from a distinct-key association list
is the same as filtering out all of them at once. -/
theorem foldl_eraseP_eq_filter (ks : List Nat) :
    ∀ l : List (Nat × ℚ), (l.map Prod.fst).Nodup →
      ks.foldl (fun acc p => acc.eraseP (fun pr => pr.1 == p)) l =
        l.filter (fun pr => decide (pr.1 ∉ ks)) := by
  induction ks with
  | nil =>
      intro l _
      exact (List.filter_eq_self.mpr fun a _ => by simp).symm
  | cons k ks ih =>
      intro l hnd
      rw [List.foldl_cons]
      rw [eraseP_key_eq_filter hnd]
      have hnd2 : ((l.filter (fun pr => pr.1 != k)).map Prod.fst).Nodup :=
        ((List.filter_sublist l).map Prod.fst).nodup hnd
      rw [ih _ hnd2, List.filter_filter]
      refine List.filter_congr fun pr _ => ?_
      by_cases h1 : pr.1 = k <;> by_cases h2 : pr.1 ∈ ks <;>
        simp [h1, h2]

/-- Under distinct keys, an entry's key appears among the keys of the
entries satisfying a predicate exactly when the entry itself satisfies it. -/
theorem mem_map_fst_filter_iff {l : List (Nat × ℚ)}
    (hnd : (l.map Prod.fst).Nodup) (pred : Nat × ℚ → Bool) :
    ∀ pr ∈ l, (pr.1 ∈ (l.filter pred).map Prod.fst ↔ pred pr = true) := by
  induction l with
  | nil => intro pr h; cases h
  | cons a rest ih =>
      rw [List.map_cons, List.nodup_cons] at hnd
      obtain ⟨hnot, hnd⟩ := hnd
      intro pr hpr
      rcases List.mem_cons.mp hpr with rfl | hrest
      · by_cases hp : pred pr = true
        · simp [List.filter_cons_of_pos hp, hp]
        · rw [List.filter_cons_of_neg hp]
          constructor
          · intro hmem
            exfalso
            have : pr.1 ∈ rest.map Prod.fst := by
              have := List.mem_map.mp hmem
              obtain ⟨q, hq, he⟩ := this
              have hqr : q ∈ rest := (List.mem_filter.mp hq).1
              exact he ▸ List.mem_map_of_mem Prod.fst hqr
            exact hnot this
          · intro h
            exact absurd h hp
      · have hne : pr.1 ∈ (rest.filter pred).map Prod.fst ↔ pred pr = true :=
          ih hnd pr hrest
        by_cases hp : pred a = true
        · rw [List.filter_cons_of_pos hp]
          rw [List.map_cons, List.mem_cons]
          constructor
          · rintro (he | hmem)
            · exfalso
              apply hnot
              rw [← he]
              exact List.mem_map_of_mem Prod.fst hrest
            · exact hne.mp hmem
          · intro h
            exact Or.inr (hne.mpr h)
        · rw [List.filter_cons_of_neg hp]
          exact hne

/-- C7: an awake eviction sweep keeps exactly the peers heard from within
the last 10 seconds — every peer whose record is strictly older than 10
seconds is removed, every other peer is retained — and no other component
of the node state changes. -/
theorem C7_evict (now : ℚ) (s : NodeState) (hA : s.awake = true)
    (hnd : (s.peers.map Prod.fst).Nodup) :
    (evict_peers now s).peers =
      s.peers.filter (fun pr => decide (now - pr.2 ≤ 10)) ∧
    (∀ p t, (p, t) ∈ (evict_peers now s).peers ↔
        ((p, t) ∈ s.peers ∧ now - t ≤ 10)) ∧
    (evict_peers now s).biggest_prime = s.biggest_prime ∧
    (evict_peers now s).biggest_prime_sender = s.biggest_prime_sender ∧
    (evict_peers now s).msg_id = s.msg_id ∧
    (evict_peers now s).received = s.received ∧
    (evict_peers now s).awake = s.awake := by
  have hpeers : (evict_peers now s).peers =
      s.peers.filter (fun pr => decide (now - pr.2 ≤ 10)) := by
    have h1 : (evict_peers now s).peers =
        s.peers.filter (fun pr =>
          decide (pr.1 ∉ ((s.peers.filter (fun pr => decide (10 < now - pr.2))).map
            Prod.fst))) := by
      simp only [evict_peers, hA, if_pos]
      exact foldl_eraseP_eq_filter _ s.peers hnd
    rw [h1]
    refine List.filter_congr fun pr hpr => ?_
    have hiff := mem_map_fst_filter_iff hnd
      (fun pr => decide (10 < now - pr.2)) pr hpr
    by_cases hm : pr.1 ∈ ((s.peers.filter (fun pr => decide (10 < now - pr.2))).map
        Prod.fst)
    · have : (10 : ℚ) < now - pr.2 := by simpa using hiff.mp hm
      simp [hm, this, not_le.mpr this]
    · have : ¬ (10 : ℚ) < now - pr.2 := by
        intro hlt
        exact hm (hiff.mpr (by simpa using hlt))
      simp [hm, not_lt.mp this]
  refine ⟨hpeers, ?_, ?_, ?_, ?_, ?_, ?_⟩
  · intro p t
    rw [hpeers, List.mem_filter]
    simp
  all_goals simp [evict_peers, hA]

/-- A node with one stale peer (last heard at time 0) and one fresh peer
(last heard at time 20), swept at time 25. -/
def sSweep : NodeState :=
  { peers := [(5001, 0), (5002, 20)], biggest_prime := 2,
    biggest_prime_sender := 5000, msg_id := 0, received := [], awake := true }

/-- C7 (witness): at `now = 25`, peer 5001 (idle 25s) is evicted and peer
5002 (idle 5s) is retained; nothing else changes. -/
theorem C7_witness :
    (evict_peers 25 sSweep).peers =
      sSweep.peers.filter (fun pr => decide ((25 : ℚ) - pr.2 ≤ 10)) ∧
    (∀ p t, (p, t) ∈ (evict_peers 25 sSweep).peers ↔
        ((p, t) ∈ sSweep.peers ∧ (25 : ℚ) - t ≤ 10)) ∧
    (evict_peers 25 sSweep).biggest_prime = sSweep.biggest_prime ∧
    (evict_peers 25 sSweep).biggest_prime_sender = sSweep.biggest_prime_sender ∧
    (evict_peers 25 sSweep).msg_id = sSweep.msg_id ∧
    (evict_peers 25 sSweep).received = sSweep.received ∧
    (evict_peers 25 sSweep).awake = sSweep.awake :=
  C7_evict 25 sSweep (by decide) (by decide)

/-! ### C9: send-side error handling -/

/-- The wire value of the `msg_type` field, checked against
`MESSAGE_TYPES`. -/
def parseMsgType : String → Option MsgType
  | "PING" => some MsgType.ping
  | "PONG" => some MsgType.pong
  | "PRIME" => some MsgType.prime
  | _ => none

/-- A message dict as handed to `send_message_to`, before validation:
each field may be missing. -/
structure Draft where
  msg_type : Option String
  ttl : Option Int
  data : Option Int
  msg_originator : Option Nat
deriving DecidableEq, Repr

/-- A send target: either an integer peer identifier or a value of some
other type (the programming-contract violation of the spec). -/
inductive PeerVal where
  | valid (port : Nat)
  | malformed (desc : String)
deriving DecidableEq, Repr

/-- `send_message_to` with its full validation, mirroring the source
order: the `only_if_awake` gate, then the peer-type check (raises
`TypeError`), the TTL presence check, the `msg_type` validity check, the
forwarded-originator check; after validation the delivery attempt is
recorded and the counter incremented whether or not the network call
failed (`requests` exceptions are caught and logged). -/
def send_message_to (cfg : Config) (peer : PeerVal) (draft : Draft)
    (forwarded : Bool) (outcome : NetOutcome) (s : NodeState) :
    Except String (NodeState × List Sent) :=
  if s.awake then
    match peer with
    | .malformed _ => .error "TypeError: tried to send a message to non-integer"
    | .valid p =>
        match draft.ttl with
        | none => .error "Must have a TTL"
        | some t =>
            match draft.msg_type with
            | none => .error "Must have a valid msg_type"
            | some mts =>
                match parseMsgType mts with
                | none => .error "Must have a valid msg_type"
                | some mt =>
                    if forwarded ∧ draft.msg_originator = none then
                      .error "Must have msg_originator in message if message was forwarded"
                    else
                      .ok (sendMessageTo cfg p mt t draft.data
                            (draft.msg_originator.getD cfg.myPort) forwarded outcome s)
  else .ok (s, [])

/-- On a valid integer peer and a fully populated message dict, the
checked `send_message_to` never raises and agrees with the happy-path
send used by the dispatch code. -/
theorem send_message_to_valid (cfg : Config) (p : Nat) (mts : String)
    (mt : MsgType) (t : Int) (data : Option Int) (origin : Nat)
    (forwarded : Bool) (outcome : NetOutcome) (s : NodeState)
    (hA : s.awake = true) (hmt : parseMsgType mts = some mt) :
    send_message_to cfg (.valid p)
      { msg_type := some mts, ttl := some t, data := data,
        msg_originator := some origin } forwarded outcome s =
      .ok (sendMessageTo cfg p mt t data origin forwarded outcome s) := by
  simp [send_message_to, hA, hmt]

/-- A `for peer in peers: send_message_to(...)` loop with Python exception
semantics: an uncaught exception aborts the loop, while caught network
failures (already absorbed inside `send_message_to`) let it continue. -/
def fanOutChecked (cfg : Config) (netOf : Nat → NetOutcome) :
    List PeerVal → Draft → Bool → NodeState → Except String (NodeState × List Sent)
  | [], _, _, s => .ok (s, [])
  | pv :: rest, draft, forwarded, s =>
      match send_message_to cfg pv draft forwarded
          (match pv with | .valid q => netOf q | .malformed _ => .delivered) s with
      | .error e => .error e
      | .ok (s1, out1) =>
          match fanOutChecked cfg netOf rest draft forwarded s1 with
          | .error e => .error e
          | .ok (s2, out2) => .ok (s2, out1 ++ out2)

/-- C9: sending to a non-integer peer raises (for any message and any
network condition), while a fan-out over well-typed peers never raises for
any assignment of network outcomes — including failures — and records one
delivery attempt per peer, so one unreachable peer never prevents the
attempts to the remaining peers of the round. -/
theorem C9_send_errors :
    (∀ (cfg : Config) (desc : String) (draft : Draft) (forwarded : Bool)
        (outcome : NetOutcome) (s : NodeState), s.awake = true →
        ∃ e, send_message_to cfg (.malformed desc) draft forwarded outcome s =
          .error e) ∧
    (∀ (cfg : Config) (netOf : Nat → NetOutcome) (ports : List Nat)
        (mts : String) (mt : MsgType) (t : Int) (data : Option Int)
        (origin : Nat) (forwarded : Bool) (s : NodeState),
        s.awake = true → parseMsgType mts = some mt →
        ∃ s2 atts,
          fanOutChecked cfg netOf (ports.map PeerVal.valid)
            { msg_type := some mts, ttl := some t, data := data,
              msg_originator := some origin } forwarded s = .ok (s2, atts) ∧
          atts.map Sent.peer = ports) := by
  constructor
  · intro cfg desc draft forwarded outcome s hA
    refine ⟨"TypeError: tried to send a message to non-integer", ?_⟩
    simp [send_message_to, hA]
  · intro cfg netOf ports mts mt t data origin forwarded s hA hmt
    induction ports generalizing s with
    | nil => exact ⟨s, [], rfl, rfl⟩
    | cons p rest ih =>
        obtain ⟨s2, atts, heq, hmap⟩ :=
          ih { s with msg_id := s.msg_id + 1 } hA
        refine ⟨s2,
          { peer := p
            env := { msg_type := mt, ttl := t, data := data
                     msg_id := s.msg_id
                     msg_originator := if forwarded then origin else cfg.myPort
                     msg_forwarder := cfg.myPort }
            outcome := netOf p } :: atts, ?_, ?_⟩
        · simp only [List.map_cons, fanOutChecked,
            send_message_to_valid cfg p mts mt t data origin forwarded
              (netOf p) s hA hmt,
            sendMessageTo_awake hA]
          rw [heq]
          rfl
        · simp [hmap]

/-- C9 (witness): sending to a malformed target raises on the two-peer
node, and a PRIME fan-out to peers 5001 and 5002 in which every network
call fails still attempts delivery to both peers and raises nothing. -/
theorem C9_witness :
    (∃ e, send_message_to cfgW (.malformed "a string, not a port")
        { msg_type := some "PRIME", ttl := some 2, data := some 7,
          msg_originator := none } false .delivered sW = .error e) ∧
    (∃ s2 atts,
        fanOutChecked cfgW (fun _ => NetOutcome.netFail)
          ([5001, 5002].map PeerVal.valid)
          { msg_type := some "PRIME", ttl := some 2, data := some 7,
            msg_originator := some 5000 } false sW = .ok (s2, atts) ∧
        atts.map Sent.peer = [5001, 5002]) :=
  ⟨C9_send_errors.1 cfgW "a string, not a port"
      { msg_type := some "PRIME", ttl := some 2, data := some 7,
        msg_originator := none } false .delivered sW (by decide),
   C9_send_errors.2 cfgW (fun _ => NetOutcome.netFail) [5001, 5002]
      "PRIME" .prime 2 (some 7) 5000 false sW (by decide) (by decide)⟩

end Nakamoto
